import Mathlib

/-!
Verification of the glogger log-distribution pipeline.

Shallow embedding of the Go sources:
* `glog/models/log_data.go` — `LogLevel`, `FieldType`, `LogData`, `LogField`;
* `glog/zap/zap_logger.go` — the bundled zap publisher (`SendMsg`,
  `getPayloadFields`);
* `glog/log_message.go` (the `LoggerService` part) — registry
  (`AddLogger`/`RemoveLogger`), dispatcher (`processLogData`), worker
  (`runWorker`/`processJob`) and the shutdown drain (`Stop`);
* the front-end `Logger.sendData` channel send.

Go machine integers that are only carried (never computed with) are modelled
as `Int`; a `float64` payload is carried as its 64-bit pattern (`Nat`); an
`interface\x7b\x7d` payload is carried as an opaque token (`Nat`).  Goroutine
interleaving of the dispatcher/worker pool is modelled by a small-step
transition relation `Step` on `MState`.
-/

namespace Glogger

/-! ## Data model (`glog/models/log_data.go`) -/

/-- Go `type LogLevel int8`, constants `iota - 1`: Debug = -1 … Fatal = 5. -/
abbrev LogLevel := Int

def DebugLevel : LogLevel := -1
def InfoLevel : LogLevel := 0
def WarnLevel : LogLevel := 1
def ErrorLevel : LogLevel := 2
def DPanicLevel : LogLevel := 3
def PanicLevel : LogLevel := 4
def FatalLevel : LogLevel := 5

/-- Go `type FieldType int8`, constants `iota`: String = 0 … Object = 3. -/
abbrev FieldType := Int

def FieldTypeString : FieldType := 0
def FieldTypeInt : FieldType := 1
def FieldTypeFloat : FieldType := 2
def FieldTypeObject : FieldType := 3

/-- A Go `context.Context` restricted to the two well-known keys the code
reads (`models.AppID`, `models.EnvName`).  `none` for a key means the
context carries no string value for it (absent or of another type). -/
structure GoContext where
  appIDVal : Option String
  envNameVal : Option String
deriving DecidableEq, Repr

/-- `context.Background()` carries no values. -/
def GoContext.background : GoContext := ⟨none, none⟩

/-- Go `models.LogField`.  `float` is the carried 64-bit pattern of the Go
`float64` (`0.0` has pattern `0`); `object` is an opaque token standing for
the carried `interface\x7b\x7d` value. -/
structure LogField where
  key : String
  type : FieldType
  integer : Int
  float : Nat
  string : String
  object : Nat
deriving DecidableEq, Repr

/-- Go `models.LogData`.  `ctx` is `none` when the Go `Ctx` field is nil. -/
structure LogData where
  ctx : Option GoContext
  msg : String
  fields : List LogField
  level : LogLevel
deriving DecidableEq, Repr

/-! ## The bundled zap publisher (`glog/zap/zap_logger.go`) -/

/-- The configuration of `zap.Logger` that `SendMsg` reads. -/
structure ZapLogger where
  appID : String
  env : String
deriving DecidableEq, Repr

/-- A `zapcore.Field` as built by `SendMsg`/`getPayloadFields`:
`zap.String`, `zap.Int`, `zap.Float64`, `zap.Any`, `zap.Namespace`. -/
inductive ZapField where
  | str (key value : String)
  | int (key : String) (value : Int)
  | float (key : String) (value : Nat)
  | any (key : String) (value : Nat)
  | ns (key : String)
deriving DecidableEq, Repr

/-- One emitted log line: which level method was invoked (`l.Error`,
`l.Warn`, `l.Info`, `l.Debug` or `l.Fatal`), with its message and fields. -/
structure ZapOutput where
  level : LogLevel
  msg : String
  fields : List ZapField
deriving DecidableEq, Repr

/-- The `switch f.Type` body of `getPayloadFields`: the typed zap field one
log field contributes, or nothing when the type tag falls through the Go
`switch` (it has no default case). -/
def zapEncode (f : LogField) : Option ZapField :=
  if f.type = FieldTypeInt then some (ZapField.int f.key f.integer)
  else if f.type = FieldTypeString then some (ZapField.str f.key f.string)
  else if f.type = FieldTypeFloat then some (ZapField.float f.key f.float)
  else if f.type = FieldTypeObject then some (ZapField.any f.key f.object)
  else none

/-- `getPayloadFields`: a `zap.Namespace "payload"` marker followed by one
typed zap field per log field, switching on the field's type tag. -/
def getPayloadFields (logData : LogData) : List ZapField :=
  ZapField.ns "payload" :: logData.fields.filterMap zapEncode

/-- `SendMsg` of the zap publisher.  Returns the record as it stands after
the call (the code writes `logData.Ctx = context.Background()` when `Ctx`
is nil) together with the emitted output, `none` when the level switch has
no matching case. -/
def SendMsg (l : ZapLogger) (logData : LogData) : LogData × Option ZapOutput :=
  let logData :=
    if logData.ctx = none then { logData with ctx := some GoContext.background }
    else logData
  let ctx := logData.ctx.getD GoContext.background
  let appID :=
    match ctx.appIDVal with
    | some s => if s = "" then l.appID else s
    | none => l.appID
  let env :=
    match ctx.envNameVal with
    | some s => if s = "" then l.env else s
    | none => l.env
  let fields :=
    ZapField.str "service_name" appID :: ZapField.str "env" env ::
      getPayloadFields logData
  let out : Option ZapOutput :=
    if logData.level = ErrorLevel then some ⟨ErrorLevel, logData.msg, fields⟩
    else if logData.level = WarnLevel then some ⟨WarnLevel, logData.msg, fields⟩
    else if logData.level = InfoLevel then some ⟨InfoLevel, logData.msg, fields⟩
    else if logData.level = DebugLevel then some ⟨DebugLevel, logData.msg, fields⟩
    else if logData.level = FatalLevel then some ⟨FatalLevel, logData.msg, fields⟩
    else none
  (logData, out)

/-- The zap field a recognised log field is encoded to. -/
def encodeField (f : LogField) : ZapField :=
  if f.type = FieldTypeInt then ZapField.int f.key f.integer
  else if f.type = FieldTypeString then ZapField.str f.key f.string
  else if f.type = FieldTypeFloat then ZapField.float f.key f.float
  else ZapField.any f.key f.object

/-- A field whose type tag is one of the four declared constants. -/
def recognisedType (f : LogField) : Prop :=
  f.type = FieldTypeString ∨ f.type = FieldTypeInt ∨
    f.type = FieldTypeFloat ∨ f.type = FieldTypeObject

instance (f : LogField) : Decidable (recognisedType f) := by
  unfold recognisedType; infer_instance

/-! ## The distribution service (`LoggerService` in `glog/log_message.go`) -/

/-- An abstract registered publisher (`interfaces.LogPublisher`).  The
service never looks inside one; the two behaviours a `SendMsg` call can
exhibit towards its worker are how long it runs (`duration`, in the same
milliseconds as `sendTimeout`) and whether it panics. -/
structure Publisher where
  duration : Nat
  panics : Bool
deriving DecidableEq, Repr

/-- The publisher registry `ls.loggers : map[string]interfaces.LogPublisher`,
as an association list with pairwise-distinct keys (Go map).  The `Option`
is Go interface nil-ness: `(id, none)` is a registered nil publisher. -/
abbrev Registry := List (String × Option Publisher)

/-- `ls.loggers[loggerID] = logger`: replace the entry if the key is
present, otherwise insert it.  A nil (`none`) publisher is stored as-is. -/
def AddLogger (m : Registry) (loggerID : String) (logger : Option Publisher) :
    Registry :=
  if m.any (fun e => e.1 = loggerID) then
    m.map (fun e => if e.1 = loggerID then (loggerID, logger) else e)
  else m ++ [(loggerID, logger)]

/-- `delete(ls.loggers, loggerID)`: a no-op when the key is absent. -/
def RemoveLogger (m : Registry) (loggerID : String) : Registry :=
  m.filter (fun e => e.1 ≠ loggerID)

/-- `sendJob`: created by the dispatcher, one per non-nil publisher in the
snapshot; `logger` is non-nil by construction. -/
structure SendJob where
  loggerID : String
  logger : Publisher
  logData : LogData
deriving DecidableEq, Repr

/-- The diagnostic side effects the service prints (`fmt.Println` /
`fmt.Printf` in `processLogData` and `processJob`). -/
inductive Diag where
  | noLoggers
  | nilLogger (loggerID : String)
  | sendTimeout (loggerID : String) (msg : String)
deriving DecidableEq, Repr

/-- One iteration of the job-building loop of `processLogData`: skip a nil
entry with a diagnostic, append a `sendJob` for a non-nil entry. -/
def snapshotStep (logData : LogData) (acc : List SendJob × List Diag)
    (e : String × Option Publisher) : List SendJob × List Diag :=
  match e.2 with
  | none => (acc.1, acc.2 ++ [Diag.nilLogger e.1])
  | some p => (acc.1 ++ [⟨e.1, p, logData⟩], acc.2)

/-- The job-building loop of `processLogData`: iterate over the snapshot,
skip nil entries with a diagnostic, append a `sendJob` for each non-nil
entry. -/
def snapshotJobs (loggers : Registry) (logData : LogData) :
    List SendJob × List Diag :=
  loggers.foldl (snapshotStep logData) ([], [])

/-- `processLogData`: nil records are dropped silently; an empty registry
drops the record with a "no loggers configured" diagnostic; otherwise one
snapshot of the registry is taken under the read lock and turned into jobs
by the loop above.  Returns the jobs sent to `jobCh` and the diagnostics
printed. -/
def processLogData (loggers : Registry) (logData : Option LogData) :
    List SendJob × List Diag :=
  match logData with
  | none => ([], [])
  | some d =>
      if loggers.length = 0 then ([], [Diag.noLoggers])
      else snapshotJobs loggers d

/-- `sendTimeout = 100 * time.Millisecond`, in milliseconds. -/
def sendTimeoutMs : Nat := 100

/-- What one `processJob` call amounts to.  `crashed` is true when the
publish goroutine panicked: `processJob` installs no `recover`, and an
unrecovered panic in any goroutine terminates the whole Go process.
`workerWait` is how long the worker itself waited before taking its next
job (the `select` on `doneCh` versus `time.After(sendTimeout)`);
`publishRunTime` is how long the spawned publish goroutine ran — the code
never cancels it, so it is the publisher's full duration even when the
wait was abandoned. -/
structure JobResult where
  crashed : Bool
  workerWait : Nat
  diags : List Diag
  publishRunTime : Nat
deriving DecidableEq, Repr

/-- `processJob`: spawn `job.logger.SendMsg(job.logData)` in a goroutine,
then wait for it to close `doneCh` or for the timeout, whichever first.  On
timeout, print the diagnostic naming the logger id and the message text and
return; the goroutine is left running. -/
def processJob (job : SendJob) : JobResult :=
  if job.logger.panics then ⟨true, 0, [], 0⟩
  else if job.logger.duration ≤ sendTimeoutMs then
    ⟨false, job.logger.duration, [], job.logger.duration⟩
  else
    ⟨false, sendTimeoutMs, [Diag.sendTimeout job.loggerID job.logData.msg],
      job.logger.duration⟩

/-- `runWorker`: `for job := range ls.jobCh \x7b ls.processJob(job) \x7d`,
over the sequence of jobs this worker receives.  Returns the results of the
jobs actually processed and whether the process crashed (a crash ends
everything, so no later job is processed). -/
def runWorker (jobs : List SendJob) : List JobResult × Bool :=
  match jobs with
  | [] => ([], false)
  | job :: rest =>
      let r := processJob job
      if r.crashed then ([r], true)
      else
        let res := runWorker rest
        (r :: res.1, res.2)

/-! ## The producer-side channel send (`Logger.sendData`, front-end) -/

/-- The state of the intake channel at the moment the asynchronous
`l.logChan <- logData` executes. -/
inductive ChanState where
  | openFree
  | openFull
  | closed
deriving DecidableEq, Repr

/-- What can become of an offered record.  `rejected` is the explicit
"record not accepted" signal the spec postulates; it is listed so the
spec's claim can be stated, the code never produces it. -/
inductive SendOutcome where
  | enqueued
  | blocked
  | panicked
  | rejected
deriving DecidableEq, Repr

/-- `sendData`: a plain Go channel send.  Space free: the record is
enqueued.  Buffer full: the send blocks until space frees (or forever).
Channel closed: the send panics the process. -/
def sendData (st : ChanState) : SendOutcome :=
  match st with
  | ChanState.openFree => SendOutcome.enqueued
  | ChanState.openFull => SendOutcome.blocked
  | ChanState.closed => SendOutcome.panicked

/-! ## Small-step semantics of the running service

The dispatcher goroutine (`runMainWorker`) and the `numWorkers` worker
goroutines interleave arbitrarily; `Step` enumerates the atomic actions.
Publish invocations are recorded as events `(loggerID, record)`; the machine
models runs with non-panicking publishers (a panic ends the process and is
treated separately through `runWorker`). -/

def defaultInputBufferSize : Nat := 100
def defaultJobBufferSize : Nat := 1000
def defaultNumWorkers : Nat := 4

/-- A publish invocation observed by a publisher: which registered id was
targeted and the record it received. -/
abbrev Ev := String × LogData

def jobEvent (j : SendJob) : Ev := (j.loggerID, j.logData)

/-- A worker goroutine: waiting on `jobCh`, processing one job, or returned
(its `range` loop ended because `jobCh` is closed and empty). -/
inductive WStatus where
  | idle
  | busy (job : SendJob)
  | exited
deriving DecidableEq, Repr

def jobsOfWorker : WStatus → List SendJob
  | WStatus.busy j => [j]
  | _ => []

def workerEvents (w : WStatus) : List Ev := (jobsOfWorker w).map jobEvent

/-- The publish events a queued record will give rise to once dispatched. -/
def recordEvents (loggers : Registry) (d : Option LogData) : List Ev :=
  ((processLogData loggers d).1).map jobEvent

/-- Global state of the service: the registry, the two channels (buffer
contents plus closed flags), the dispatcher's not-yet-offered jobs for the
record it is fanning out (`pending`), the worker pool, and the observable
history (publish events, diagnostics). -/
structure MState where
  registry : Registry
  intake : List (Option LogData)
  intakeClosed : Bool
  pending : List SendJob
  jobs : List SendJob
  jobsClosed : Bool
  workers : List WStatus
  published : List Ev
  diags : List Diag
deriving DecidableEq, Repr

/-- One atomic action of the dispatcher or of a worker.

* `dispatch` — the dispatcher receives one record from `inputCh` and builds
  its fan-out jobs under the registry read lock (`processLogData` up to the
  send loop); it only does so when it finished offering the previous
  record's jobs (it is a single goroutine).
* `push` — the dispatcher offers the next built job to `jobCh`, blocking
  while the buffer is full.
* `closeJobs` — the dispatcher's `range`/drain over `inputCh` ends (channel
  closed and empty) and `defer close(ls.jobCh)` runs.
* `take` — an idle worker receives a job from `jobCh`.
* `finish` — a worker's current publish invocation is recorded and the
  worker returns to the pool.
* `wexit` — a worker's `range ls.jobCh` ends: `jobCh` closed and empty. -/
inductive Step : MState → MState → Prop where
  | dispatch (s : MState) (d : Option LogData) (rest : List (Option LogData))
      (hin : s.intake = d :: rest) (hpend : s.pending = []) :
      Step s { s with intake := rest,
                      pending := (processLogData s.registry d).1,
                      diags := s.diags ++ (processLogData s.registry d).2 }
  | push (s : MState) (j : SendJob) (rest : List SendJob)
      (hpend : s.pending = j :: rest)
      (hroom : s.jobs.length < defaultJobBufferSize) :
      Step s { s with pending := rest, jobs := s.jobs ++ [j] }
  | closeJobs (s : MState) (hic : s.intakeClosed = true) (hin : s.intake = [])
      (hpend : s.pending = []) (hjc : s.jobsClosed = false) :
      Step s { s with jobsClosed := true }
  | take (s : MState) (i : Nat) (j : SendJob) (rest : List SendJob)
      (hw : s.workers.get? i = some WStatus.idle) (hjobs : s.jobs = j :: rest) :
      Step s { s with workers := s.workers.set i (WStatus.busy j), jobs := rest }
  | finish (s : MState) (i : Nat) (j : SendJob)
      (hw : s.workers.get? i = some (WStatus.busy j)) :
      Step s { s with workers := s.workers.set i WStatus.idle,
                      published := s.published ++ [jobEvent j] }
  | wexit (s : MState) (i : Nat)
      (hw : s.workers.get? i = some WStatus.idle)
      (hjc : s.jobsClosed = true) (hjobs : s.jobs = []) :
      Step s { s with workers := s.workers.set i WStatus.exited }

/-- Reflexive-transitive closure of `Step`. -/
inductive Reaches : MState → MState → Prop where
  | refl (s : MState) : Reaches s s
  | tail {s t u : MState} : Reaches s t → Step t u → Reaches s u

/-- Every worker's `range` loop has returned. -/
def AllExited (s : MState) : Prop := ∀ w ∈ s.workers, w = WStatus.exited

instance (s : MState) : Decidable (AllExited s) := by
  unfold AllExited; infer_instance

/-- What `Stop()` waits for: `mainWg.Wait()` — the dispatcher exited, having
closed `jobCh` on the way out — then `wg.Wait()` — every worker exited. -/
def StoppedState (s : MState) : Prop := s.jobsClosed = true ∧ AllExited s

instance (s : MState) : Decidable (StoppedState s) := by
  unfold StoppedState; infer_instance

/-- All queued work has flowed through: nothing left in the intake queue,
in the dispatcher's hands, in the delivery queue, or inside a worker. -/
def FanOutDone (s : MState) : Prop :=
  s.intake = [] ∧ s.pending = [] ∧ s.jobs = [] ∧
    ∀ w ∈ s.workers, jobsOfWorker w = []

instance (s : MState) : Decidable (FanOutDone s) := by
  unfold FanOutDone; infer_instance

/-- Conservation quantity: every publish event that has happened or is still
owed — by a busy worker, the delivery queue, the dispatcher's pending list,
or a record still in the intake queue. -/
def obligations (s : MState) : Multiset Ev :=
  ↑s.published + ↑(s.workers.flatMap workerEvents) + ↑(s.jobs.map jobEvent)
    + ↑(s.pending.map jobEvent) + ↑(s.intake.flatMap (recordEvents s.registry))

/-! ## Lemmas about the dispatcher's fan-out (`processLogData`) -/

/-- The job a snapshot entry gives rise to (`none` for a nil publisher). -/
def entryJob (logData : LogData) (e : String × Option Publisher) :
    Option SendJob :=
  e.2.map (fun p => ⟨e.1, p, logData⟩)

/-- The diagnostic a snapshot entry gives rise to (`none` when non-nil). -/
def entryDiag (e : String × Option Publisher) : Option Diag :=
  match e.2 with
  | none => some (Diag.nilLogger e.1)
  | some _ => none

theorem snapshotJobs_go (logData : LogData) :
    ∀ (l : Registry) (acc : List SendJob × List Diag),
      l.foldl (snapshotStep logData) acc =
        (acc.1 ++ l.filterMap (entryJob logData),
         acc.2 ++ l.filterMap entryDiag) := by
  intro l
  induction l with
  | nil => intro acc; simp
  | cons e rest ih =>
      intro acc
      obtain ⟨id, pub⟩ := e
      cases pub with
      | none => simp [snapshotStep, ih, entryJob, entryDiag]
      | some p => simp [snapshotStep, ih, entryJob, entryDiag]

theorem snapshotJobs_eq (loggers : Registry) (d : LogData) :
    snapshotJobs loggers d =
      (loggers.filterMap (entryJob d), loggers.filterMap entryDiag) := by
  simpa [snapshotJobs] using snapshotJobs_go d loggers ([], [])

theorem mem_snapshot_jobs {loggers : Registry} {d : LogData} {j : SendJob} :
    j ∈ (snapshotJobs loggers d).1 ↔
      (j.loggerID, some j.logger) ∈ loggers ∧ j.logData = d := by
  simp only [snapshotJobs_eq, List.mem_filterMap, entryJob]
  constructor
  · rintro ⟨⟨id, pub⟩, hmem, hmap⟩
    cases pub with
    | none => simp at hmap
    | some p =>
        simp only [Option.map_some] at hmap
        cases hmap
        exact ⟨hmem, rfl⟩
  · rintro ⟨hmem, hd⟩
    exact ⟨(j.loggerID, some j.logger), hmem, by cases j; cases hd; rfl⟩

theorem length_snapshot_jobs (d : LogData) :
    ∀ l : Registry,
      (l.filterMap (entryJob d)).length =
        (l.filter (fun e => e.2.isSome)).length := by
  intro l
  induction l with
  | nil => simp
  | cons e rest ih =>
      obtain ⟨id, pub⟩ := e
      cases pub with
      | none => simpa [entryJob] using ih
      | some p => simpa [entryJob] using ih

theorem snapshot_jobs_filter_not_mem (d : LogData) :
    ∀ (l : Registry) (lid : String), lid ∉ l.map Prod.fst →
      (l.filterMap (entryJob d)).filter (fun j => j.loggerID = lid) = [] := by
  intro l
  induction l with
  | nil => simp
  | cons e rest ih =>
      intro lid hid
      obtain ⟨eid, pub⟩ := e
      simp only [List.map_cons, List.mem_cons, not_or] at hid
      cases pub with
      | none => simpa [entryJob] using ih lid hid.2
      | some p =>
          have hne : eid ≠ lid := fun h => hid.1 h.symm
          simp [entryJob, List.filter_cons, hne, ih lid hid.2]

theorem snapshot_jobs_filter_mem (d : LogData) :
    ∀ (l : Registry) (lid : String) (p : Publisher),
      (l.map Prod.fst).Nodup → (lid, some p) ∈ l →
      (l.filterMap (entryJob d)).filter (fun j => j.loggerID = lid) =
        [⟨lid, p, d⟩] := by
  intro l
  induction l with
  | nil => simp
  | cons e rest ih =>
      intro lid p hnd hmem
      obtain ⟨eid, pub⟩ := e
      simp only [List.map_cons, List.nodup_cons] at hnd
      rcases List.mem_cons.mp hmem with heq | hmem'
      · injection heq with h1 h2
        subst h1; subst h2
        simp [entryJob, List.filter_cons,
          snapshot_jobs_filter_not_mem d rest lid hnd.1]
      · have hne : eid ≠ lid := by
          intro h
          exact hnd.1 (h ▸ List.mem_map_of_mem Prod.fst hmem')
        cases pub with
        | none => simpa [entryJob] using ih lid p hnd.2 hmem'
        | some q =>
            simp [entryJob, List.filter_cons, hne, ih lid p hnd.2 hmem']

/-! ## Conservation of publish events across interleavings -/

theorem coe_flatMap_set {α β : Type} (f : α → List β) :
    ∀ (l : List α) (i : Nat) (a b : α), l.get? i = some a →
      (↑((l.set i b).flatMap f) + ↑(f a) : Multiset β) =
        ↑(l.flatMap f) + ↑(f b) := by
  intro l
  induction l with
  | nil => intro i a b h; simp at h
  | cons x xs ih =>
      intro i a b h
      cases i with
      | zero =>
          simp only [List.get?_cons_zero, Option.some.injEq] at h
          subst h
          simp only [List.set, List.flatMap_cons, Multiset.coe_add]
          refine Multiset.coe_eq_coe.mpr ?_
          refine List.perm_append_comm.trans ?_
          rw [List.append_assoc]
          exact List.Perm.append_left _ List.perm_append_comm
      | succ n =>
          simp only [List.get?_cons_succ] at h
          have ihp : List.Perm ((xs.set n b).flatMap f ++ f a)
              (xs.flatMap f ++ f b) := by
            have ih' := ih n a b h
            rw [Multiset.coe_add, Multiset.coe_add] at ih'
            exact Multiset.coe_eq_coe.mp ih'
          simp only [List.set, List.flatMap_cons, Multiset.coe_add]
          refine Multiset.coe_eq_coe.mpr ?_
          rw [List.append_assoc, List.append_assoc]
          exact List.Perm.append_left _ ihp

theorem mem_set_of_get? {α : Type} :
    ∀ (l : List α) (i : Nat) (a b : α), l.get? i = some a → b ∈ l.set i b := by
  intro l
  induction l with
  | nil => intro i a b h; simp at h
  | cons x xs ih =>
      intro i a b h
      cases i with
      | zero => simp [List.set]
      | succ n =>
          simp only [List.get?_cons_succ] at h
          simp only [List.set, List.mem_cons]
          exact Or.inr (ih n a b h)

theorem set_ne_nil {α : Type} (l : List α) (i : Nat) (b : α) (h : l ≠ []) :
    l.set i b ≠ [] := by
  intro hnil
  have hlen : (l.set i b).length = l.length := List.length_set ..
  rw [hnil] at hlen
  exact h (List.length_eq_zero.mp hlen.symm)

theorem coe_cons {α : Type} (x : α) (l : List α) :
    (↑(x :: l) : Multiset α) = {x} + ↑l := by
  rw [← Multiset.cons_coe, Multiset.singleton_add]

/-- Every step of the system preserves the multiset of publish events that
have happened or are still owed: no interleaving of the dispatcher and the
workers creates or destroys a delivery obligation. -/
theorem obligations_step {s t : MState} (h : Step s t) :
    obligations t = obligations s := by
  cases h with
  | dispatch d rest hin hpend =>
      show (↑s.published : Multiset Ev) + ↑(s.workers.flatMap workerEvents)
          + ↑(s.jobs.map jobEvent)
          + ↑((processLogData s.registry d).1.map jobEvent)
          + ↑(rest.flatMap (recordEvents s.registry))
        = (↑s.published : Multiset Ev) + ↑(s.workers.flatMap workerEvents)
          + ↑(s.jobs.map jobEvent) + ↑(s.pending.map jobEvent)
          + ↑(s.intake.flatMap (recordEvents s.registry))
      rw [hpend, hin]
      simp only [List.flatMap_cons, List.map_nil, Multiset.coe_nil, add_zero,
        recordEvents, ← Multiset.coe_add]
      abel
  | push j rest hpend hroom =>
      show (↑s.published : Multiset Ev) + ↑(s.workers.flatMap workerEvents)
          + ↑((s.jobs ++ [j]).map jobEvent) + ↑(rest.map jobEvent)
          + ↑(s.intake.flatMap (recordEvents s.registry))
        = (↑s.published : Multiset Ev) + ↑(s.workers.flatMap workerEvents)
          + ↑(s.jobs.map jobEvent) + ↑(s.pending.map jobEvent)
          + ↑(s.intake.flatMap (recordEvents s.registry))
      rw [hpend]
      simp only [List.map_append, List.map_cons, List.map_nil,
        ← Multiset.coe_add, coe_cons, Multiset.coe_nil, add_zero]
      abel
  | closeJobs hic hin hpend hjc =>
      rfl
  | take i j rest hw hjobs =>
      have hset := coe_flatMap_set workerEvents s.workers i WStatus.idle
        (WStatus.busy j) hw
      simp only [workerEvents, jobsOfWorker, List.map_cons, List.map_nil,
        Multiset.coe_nil, add_zero, coe_cons] at hset
      show (↑s.published : Multiset Ev)
          + ↑((s.workers.set i (WStatus.busy j)).flatMap workerEvents)
          + ↑(rest.map jobEvent) + ↑(s.pending.map jobEvent)
          + ↑(s.intake.flatMap (recordEvents s.registry))
        = (↑s.published : Multiset Ev) + ↑(s.workers.flatMap workerEvents)
          + ↑(s.jobs.map jobEvent) + ↑(s.pending.map jobEvent)
          + ↑(s.intake.flatMap (recordEvents s.registry))
      rw [hjobs, hset]
      simp only [List.map_cons, coe_cons]
      abel
  | finish i j hw =>
      have hset := coe_flatMap_set workerEvents s.workers i (WStatus.busy j)
        WStatus.idle hw
      simp only [workerEvents, jobsOfWorker, List.map_cons, List.map_nil,
        Multiset.coe_nil, add_zero, coe_cons] at hset
      show (↑(s.published ++ [jobEvent j]) : Multiset Ev)
          + ↑((s.workers.set i WStatus.idle).flatMap workerEvents)
          + ↑(s.jobs.map jobEvent) + ↑(s.pending.map jobEvent)
          + ↑(s.intake.flatMap (recordEvents s.registry))
        = (↑s.published : Multiset Ev) + ↑(s.workers.flatMap workerEvents)
          + ↑(s.jobs.map jobEvent) + ↑(s.pending.map jobEvent)
          + ↑(s.intake.flatMap (recordEvents s.registry))
      rw [← hset]
      simp only [← Multiset.coe_add, coe_cons, Multiset.coe_nil, add_zero]
      abel
  | wexit i hw hjc hjobs =>
      have hset := coe_flatMap_set workerEvents s.workers i WStatus.idle
        WStatus.exited hw
      simp only [workerEvents, jobsOfWorker, List.map_nil,
        Multiset.coe_nil, add_zero] at hset
      show (↑s.published : Multiset Ev)
          + ↑((s.workers.set i WStatus.exited).flatMap workerEvents)
          + ↑(s.jobs.map jobEvent) + ↑(s.pending.map jobEvent)
          + ↑(s.intake.flatMap (recordEvents s.registry))
        = (↑s.published : Multiset Ev) + ↑(s.workers.flatMap workerEvents)
          + ↑(s.jobs.map jobEvent) + ↑(s.pending.map jobEvent)
          + ↑(s.intake.flatMap (recordEvents s.registry))
      rw [hset]

theorem obligations_reaches {s t : MState} (h : Reaches s t) :
    obligations t = obligations s := by
  induction h with
  | refl => rfl
  | tail hr hs ih => rw [obligations_step hs, ih]

/-! ## Shutdown-drain invariant -/

/-- Structural facts every reachable state of a run keeps:
the pool is non-empty and its size is fixed; before `jobCh` is closed no
worker has exited; once `jobCh` is closed the dispatcher is gone (intake
drained, nothing pending) and, once additionally every worker has exited,
the delivery queue is empty. -/
def Inv (s : MState) : Prop :=
  s.workers ≠ [] ∧
  (s.jobsClosed = true → s.intake = [] ∧ s.pending = []) ∧
  (s.jobsClosed = false → ∀ w ∈ s.workers, w ≠ WStatus.exited) ∧
  (s.jobsClosed = true → AllExited s → s.jobs = [])

theorem inv_step {s t : MState} (h : Step s t) (hinv : Inv s) : Inv t := by
  obtain ⟨hw0, hcl, hnx, hstop⟩ := hinv
  cases h with
  | dispatch d rest hin hpend =>
      refine ⟨hw0, ?_, hnx, ?_⟩
      · intro hjc
        have h1 := (hcl hjc).1
        rw [hin] at h1; cases h1
      · intro hjc _
        have h1 := (hcl hjc).1
        rw [hin] at h1; cases h1
  | push j rest hpend hroom =>
      refine ⟨hw0, ?_, hnx, ?_⟩
      · intro hjc
        have h2 := (hcl hjc).2
        rw [hpend] at h2; cases h2
      · intro hjc _
        have h2 := (hcl hjc).2
        rw [hpend] at h2; cases h2
  | closeJobs hic hin hpend hjc =>
      refine ⟨hw0, fun _ => ⟨hin, hpend⟩, ?_, ?_⟩
      · intro hf
        have hf' : (true : Bool) = false := hf
        cases hf'
      · intro _ hall
        obtain ⟨w, hwmem⟩ := List.exists_mem_of_ne_nil s.workers hw0
        have hallw : w = WStatus.exited := hall w hwmem
        exact absurd hallw (hnx hjc w hwmem)
  | take i j rest hw hjobs =>
      refine ⟨set_ne_nil _ _ _ hw0, hcl, ?_, ?_⟩
      · intro hjc w hwmem
        have hwmem' : w ∈ s.workers.set i (WStatus.busy j) := hwmem
        rcases List.mem_or_eq_of_mem_set hwmem' with hmem | rfl
        · exact hnx hjc w hmem
        · simp
      · intro _ hall
        have hb : WStatus.busy j ∈ s.workers.set i (WStatus.busy j) :=
          mem_set_of_get? _ i _ _ hw
        cases hall _ hb
  | finish i j hw =>
      refine ⟨set_ne_nil _ _ _ hw0, hcl, ?_, ?_⟩
      · intro hjc w hwmem
        have hwmem' : w ∈ s.workers.set i WStatus.idle := hwmem
        rcases List.mem_or_eq_of_mem_set hwmem' with hmem | rfl
        · exact hnx hjc w hmem
        · simp
      · intro _ hall
        have hb : WStatus.idle ∈ s.workers.set i WStatus.idle :=
          mem_set_of_get? _ i _ _ hw
        cases hall _ hb
  | wexit i hw hjc hjobs =>
      refine ⟨set_ne_nil _ _ _ hw0, hcl, ?_, fun _ _ => hjobs⟩
      · intro hf
        have hf' : s.jobsClosed = false := hf
        rw [hjc] at hf'; cases hf'

theorem inv_reaches {s t : MState} (h : Reaches s t) (hinv : Inv s) : Inv t := by
  induction h with
  | refl => exact hinv
  | tail hr hs ih => exact inv_step hs ih

/-! ## Concrete values used by witnesses and counterexamples -/

def pubA : Publisher := ⟨5, false⟩
def pubC : Publisher := ⟨7, false⟩
def recA : LogData := ⟨some ⟨some "svc", none⟩, "w", [], InfoLevel⟩
def regA : Registry := [("A", some pubA), ("B", none), ("C", some pubC)]

def jobSlow : SendJob := ⟨"S", ⟨250, false⟩, ⟨none, "slow message", [], InfoLevel⟩⟩
def jobPanics : SendJob := ⟨"B", ⟨3, true⟩, ⟨none, "boom", [], ErrorLevel⟩⟩
def jobAfter : SendJob := ⟨"A", ⟨1, false⟩, ⟨none, "after", [], InfoLevel⟩⟩

def zlA : ZapLogger := ⟨"app", "prod"⟩
def dNilCtx : LogData := ⟨none, "hello", [], InfoLevel⟩

/-- The zero-valued-fields record of the spec's concrete scenario:
an integer `0`, a float `0.0` (bit pattern 0), and a string `""`. -/
def dZero : LogData :=
  ⟨some GoContext.background, "test",
    [⟨"int_field", FieldTypeInt, 0, 0, "", 0⟩,
     ⟨"float_field", FieldTypeFloat, 0, 0, "", 0⟩,
     ⟨"string_field", FieldTypeString, 0, 0, "", 0⟩],
    InfoLevel⟩

/-! ## C2 — per-delivery timeout -/

/-- C2: when a (non-panicking) publish call takes longer than the
100 ms timeout, the worker stops waiting at the timeout, emits exactly one
timeout diagnostic naming the publisher id and the record's message text,
and proceeds to its next job; the publish goroutine is not terminated and
runs for its full duration past the timeout. -/
theorem delivery_timeout_policy (job : SendJob)
    (hnp : job.logger.panics = false)
    (hslow : sendTimeoutMs < job.logger.duration) :
    (processJob job).diags = [Diag.sendTimeout job.loggerID job.logData.msg] ∧
    (processJob job).diags.length = 1 ∧
    (processJob job).workerWait = sendTimeoutMs ∧
    sendTimeoutMs = 100 ∧
    (processJob job).crashed = false ∧
    (processJob job).publishRunTime = job.logger.duration ∧
    (∀ rest, runWorker (job :: rest) =
      (processJob job :: (runWorker rest).1, (runWorker rest).2)) := by
  have hf : ¬ job.logger.duration ≤ sendTimeoutMs := Nat.not_le.mpr hslow
  have hpj : processJob job =
      ⟨false, sendTimeoutMs,
        [Diag.sendTimeout job.loggerID job.logData.msg],
        job.logger.duration⟩ := by
    simp [processJob, hnp, hf]
  refine ⟨by rw [hpj], by rw [hpj]; rfl, by rw [hpj], rfl, by rw [hpj],
    by rw [hpj], ?_⟩
  intro rest
  simp [runWorker, hpj]

/-- Witness for C2 at a concrete 250 ms publisher. -/
theorem delivery_timeout_policy_w :
    jobSlow.logger.panics = false ∧ sendTimeoutMs < jobSlow.logger.duration ∧
    (processJob jobSlow).diags = [Diag.sendTimeout "S" "slow message"] ∧
    (processJob jobSlow).workerWait = 100 ∧
    (processJob jobSlow).publishRunTime = 250 := by
  have h := delivery_timeout_policy jobSlow (by decide) (by decide)
  exact ⟨by decide, by decide, by rw [h.1]; rfl, h.2.2.1, h.2.2.2.2.2.1⟩

/-! ## C4 — publish failures at the worker boundary -/

/-- C4 counterexample: a panic inside a publish call is *not* caught at the
worker boundary — `processJob` installs no recovery, so the process
crashes and the next job is never processed. -/
theorem publish_panic_crashes_pool :
    (processJob jobPanics).crashed = true ∧
    (runWorker [jobPanics, jobAfter]).2 = true ∧
    (runWorker [jobPanics, jobAfter]).1.length = 1 := by decide

/-- C4 amended: publish has no error return, so no failure value is ever
retried or propagated; and as long as no publish call panics, a worker
processes every job exactly once and neither it nor the pool crashes. -/
theorem worker_survives_non_panicking (jobs : List SendJob)
    (h : ∀ j ∈ jobs, j.logger.panics = false) :
    (runWorker jobs).2 = false ∧ (runWorker jobs).1 = jobs.map processJob := by
  induction jobs with
  | nil => simp [runWorker]
  | cons j rest ih =>
      have hj : j.logger.panics = false := h j (List.mem_cons_self j rest)
      have hcr : (processJob j).crashed = false := by
        simp only [processJob, hj, Bool.false_eq_true, if_false]
        split <;> rfl
      have ihr := ih (fun x hx => h x (List.mem_cons_of_mem j hx))
      simp [runWorker, hcr, ihr.1, ihr.2]

/-- Witness for the amended C4 on a concrete job list. -/
theorem worker_survives_non_panicking_w :
    (∀ j ∈ [jobAfter, jobSlow], j.logger.panics = false) ∧
    (runWorker [jobAfter, jobSlow]).2 = false ∧
    (runWorker [jobAfter, jobSlow]).1 =
      [processJob jobAfter, processJob jobSlow] := by
  have h := worker_survives_non_panicking [jobAfter, jobSlow] (by decide)
  exact ⟨by decide, h.1, by simpa using h.2⟩

/-! ## C5 — producer-side submission outcomes -/

/-- C5 counterexample: offering a record to the closed intake channel
panics the process; the producer never receives an explicit
"not accepted" signal, so submission does not observe only the two
outcomes the claim allows. -/
theorem producer_outcome_cex :
    sendData ChanState.closed = SendOutcome.panicked ∧
    ¬(sendData ChanState.closed = SendOutcome.enqueued ∨
      sendData ChanState.closed = SendOutcome.rejected) ∧
    ¬(∀ st, sendData st = SendOutcome.enqueued ∨
      sendData st = SendOutcome.rejected) := by
  refine ⟨rfl, by decide, fun hall => ?_⟩
  have h := hall ChanState.closed
  revert h
  decide

/-- C5 amended: the asynchronous channel send enqueues when space is free,
blocks (rather than failing fast) when the buffer is full, and panics when
the intake has been closed; no explicit rejection signal exists in the
code. -/
theorem sendData_outcomes (st : ChanState) :
    (sendData st = SendOutcome.enqueued ↔ st = ChanState.openFree) ∧
    (sendData st = SendOutcome.blocked ↔ st = ChanState.openFull) ∧
    (sendData st = SendOutcome.panicked ↔ st = ChanState.closed) ∧
    sendData st ≠ SendOutcome.rejected := by
  cases st <;> exact ⟨by decide, by decide, by decide, by decide⟩

/-! ## C7 — records shared read-only across deliveries -/

/-- C7 counterexample: the bundled zap publisher mutates the shared record
when its context is nil — `SendMsg` writes `context.Background()` into the
record's `Ctx` field, so the record is not left identical. -/
theorem record_mutated_by_zap_cex :
    (SendMsg zlA dNilCtx).1 ≠ dNilCtx ∧
    (SendMsg zlA dNilCtx).1.ctx = some GoContext.background ∧
    dNilCtx.ctx = none := by decide

/-- C7 amended: the dispatcher hands every job the record unchanged, and
the zap publisher leaves the message, fields and level unchanged; a record
whose context is non-nil is returned entirely unchanged, while a record
with a nil context has exactly its `Ctx` field overwritten with
`context.Background()`. -/
theorem record_shared_read_only (m : Registry) (l : ZapLogger) (d : LogData) :
    (∀ j ∈ (processLogData m (some d)).1, j.logData = d) ∧
    (SendMsg l d).1.msg = d.msg ∧
    (SendMsg l d).1.fields = d.fields ∧
    (SendMsg l d).1.level = d.level ∧
    (d.ctx ≠ none → (SendMsg l d).1 = d) ∧
    (d.ctx = none →
      (SendMsg l d).1 = { d with ctx := some GoContext.background }) := by
  constructor
  · intro j hj
    by_cases hm : m.length = 0
    · simp [processLogData, hm] at hj
    · simp only [processLogData, if_neg hm] at hj
      exact (mem_snapshot_jobs.mp hj).2
  · by_cases hc : d.ctx = none <;>
      simp [SendMsg, hc]

/-- Witness for the amended C7 at concrete inputs. -/
theorem record_shared_read_only_w :
    recA.ctx ≠ none ∧ (SendMsg zlA recA).1 = recA ∧
    (⟨"A", pubA, recA⟩ : SendJob) ∈ (processLogData regA (some recA)).1 ∧
    (⟨"A", pubA, recA⟩ : SendJob).logData = recA := by
  have h := record_shared_read_only regA zlA recA
  refine ⟨by decide, h.2.2.2.2.1 (by decide), by decide, ?_⟩
  exact h.1 ⟨"A", pubA, recA⟩ (by decide)

/-! ## C8 — zero-valued fields are delivered -/

theorem filterMap_zapEncode_eq_map :
    ∀ (fs : List LogField), (∀ f ∈ fs, recognisedType f) →
      fs.filterMap zapEncode = fs.map encodeField := by
  intro fs
  induction fs with
  | nil => intro _; simp
  | cons f rest ih =>
      intro h
      have hf := h f (List.mem_cons_self f rest)
      have hrest := ih (fun x hx => h x (List.mem_cons_of_mem f hx))
      rcases hf with hf | hf | hf | hf <;>
        simp [zapEncode, encodeField, hf, hrest, FieldTypeString,
          FieldTypeInt, FieldTypeFloat, FieldTypeObject]

/-- C8: every field with a recognised type tag — including those with value
`0`, `0.0` or `""` — is encoded into the payload field list exactly like
any other field: one typed zap field per log field, in order, none
stripped. -/
theorem zero_valued_fields_delivered (d : LogData)
    (h : ∀ f ∈ d.fields, recognisedType f) :
    getPayloadFields d = ZapField.ns "payload" :: d.fields.map encodeField ∧
    (getPayloadFields d).length = d.fields.length + 1 ∧
    ∀ f ∈ d.fields, encodeField f ∈ getPayloadFields d := by
  have hmap := filterMap_zapEncode_eq_map d.fields h
  refine ⟨by simp [getPayloadFields, hmap], by simp [getPayloadFields, hmap], ?_⟩
  intro f hf
  simp only [getPayloadFields, hmap, List.mem_cons]
  exact Or.inr (List.mem_map_of_mem encodeField hf)

/-- Witness for C8: the concrete 0 / 0.0 / "" scenario — all three fields
appear, typed, in order. -/
theorem zero_valued_fields_delivered_w :
    (∀ f ∈ dZero.fields, recognisedType f) ∧
    getPayloadFields dZero =
      [ZapField.ns "payload", ZapField.int "int_field" 0,
       ZapField.float "float_field" 0, ZapField.str "string_field" ""] := by
  have h := zero_valued_fields_delivered dZero (by decide)
  exact ⟨by decide, by rw [h.1]; rfl⟩

/-! ## C10 — the zap level switch -/

/-- C10: the bundled zap publisher emits output exactly for the five levels
named in its switch (Error, Warn, Info, Debug, Fatal); a record at
DPanic, Panic, or any other level falls through the switch and is silently
discarded — no output, no diagnostic. -/
theorem SendMsg_out_msg (l : ZapLogger) (d : LogData) :
    (SendMsg l d).2.map ZapOutput.msg =
      if d.level = ErrorLevel ∨ d.level = WarnLevel ∨ d.level = InfoLevel ∨
          d.level = DebugLevel ∨ d.level = FatalLevel
        then some d.msg else none := by
  by_cases hc : d.ctx = none
  all_goals
    simp only [SendMsg, hc, ite_true, ite_false, ErrorLevel, WarnLevel,
      InfoLevel, DebugLevel, FatalLevel]
  all_goals
    by_cases h1 : d.level = (2 : Int)
    case pos => simp [h1]
    all_goals by_cases h2 : d.level = (1 : Int)
    case pos => simp [h1, h2]
    all_goals by_cases h3 : d.level = (0 : Int)
    case pos => simp [h1, h2, h3]
    all_goals by_cases h4 : d.level = (-1 : Int)
    case pos => simp [h1, h2, h3, h4]
    all_goals by_cases h5 : d.level = (5 : Int)
    case pos => simp [h1, h2, h3, h4, h5]
    all_goals simp [h1, h2, h3, h4, h5]

theorem SendMsg_out_level (l : ZapLogger) (d : LogData) :
    (SendMsg l d).2.map ZapOutput.level =
      if d.level = ErrorLevel ∨ d.level = WarnLevel ∨ d.level = InfoLevel ∨
          d.level = DebugLevel ∨ d.level = FatalLevel
        then some d.level else none := by
  by_cases hc : d.ctx = none
  all_goals
    simp only [SendMsg, hc, ite_true, ite_false, ErrorLevel, WarnLevel,
      InfoLevel, DebugLevel, FatalLevel]
  all_goals
    by_cases h1 : d.level = (2 : Int)
    case pos => simp [h1]
    all_goals by_cases h2 : d.level = (1 : Int)
    case pos => simp [h1, h2]
    all_goals by_cases h3 : d.level = (0 : Int)
    case pos => simp [h1, h2, h3]
    all_goals by_cases h4 : d.level = (-1 : Int)
    case pos => simp [h1, h2, h3, h4]
    all_goals by_cases h5 : d.level = (5 : Int)
    case pos => simp [h1, h2, h3, h4, h5]
    all_goals simp [h1, h2, h3, h4, h5]

theorem SendMsg_out_none (l : ZapLogger) (d : LogData)
    (h : ¬(d.level = ErrorLevel ∨ d.level = WarnLevel ∨ d.level = InfoLevel ∨
      d.level = DebugLevel ∨ d.level = FatalLevel)) :
    (SendMsg l d).2 = none := by
  push_neg at h
  obtain ⟨h1, h2, h3, h4, h5⟩ := h
  by_cases hc : d.ctx = none <;>
    simp [SendMsg, hc, h1, h2, h3, h4, h5]

/-- C10: the bundled zap publisher emits output exactly for the five levels
named in its switch (Error, Warn, Info, Debug, Fatal), with the record's
message and level; a record at DPanic, Panic, or any other level falls
through the switch and is silently discarded — no output, no diagnostic. -/
theorem SendMsg_level_fallthrough (l : ZapLogger) (d : LogData) :
    ((SendMsg l d).2.map ZapOutput.msg =
      if d.level = ErrorLevel ∨ d.level = WarnLevel ∨ d.level = InfoLevel ∨
          d.level = DebugLevel ∨ d.level = FatalLevel
        then some d.msg else none) ∧
    ((SendMsg l d).2.map ZapOutput.level =
      if d.level = ErrorLevel ∨ d.level = WarnLevel ∨ d.level = InfoLevel ∨
          d.level = DebugLevel ∨ d.level = FatalLevel
        then some d.level else none) ∧
    (SendMsg l { d with level := DPanicLevel }).2 = none ∧
    (SendMsg l { d with level := PanicLevel }).2 = none :=
  ⟨SendMsg_out_msg l d, SendMsg_out_level l d,
   SendMsg_out_none l { d with level := DPanicLevel }
     (by simp [DPanicLevel, ErrorLevel, WarnLevel, InfoLevel, DebugLevel,
       FatalLevel]),
   SendMsg_out_none l { d with level := PanicLevel }
     (by simp [PanicLevel, ErrorLevel, WarnLevel, InfoLevel, DebugLevel,
       FatalLevel])⟩

/-! ## C1 — exactly one job per snapshot publisher -/

/-- C1: a non-nil record dequeued while the registry is non-empty produces
exactly one delivery job per non-nil publisher in the single registry
snapshot — one job per snapshot entry with a publisher, each job carrying
that publisher and the record unchanged — and no job for any id outside
the snapshot, so a publisher registered after the snapshot receives
nothing for this record.  A nil record produces no jobs at all. -/
theorem dispatcher_fanout_exactly_once (loggers : Registry) (d : LogData)
    (hkeys : (loggers.map Prod.fst).Nodup) (hne : loggers ≠ []) :
    ((processLogData loggers (some d)).1.length
        = (loggers.filter (fun e => e.2.isSome)).length) ∧
    (∀ lid p, (lid, some p) ∈ loggers →
      (processLogData loggers (some d)).1.filter (fun j => j.loggerID = lid)
        = [⟨lid, p, d⟩]) ∧
    (∀ j ∈ (processLogData loggers (some d)).1,
      (j.loggerID, some j.logger) ∈ loggers ∧ j.logData = d) ∧
    (∀ lid, lid ∉ loggers.map Prod.fst →
      ∀ j ∈ (processLogData loggers (some d)).1, j.loggerID ≠ lid) ∧
    (processLogData loggers none).1 = [] := by
  have hlen : ¬ loggers.length = 0 := fun h => hne (List.length_eq_zero.mp h)
  have hjobs : (processLogData loggers (some d)).1
      = loggers.filterMap (entryJob d) := by
    simp [processLogData, hlen, snapshotJobs_eq]
  refine ⟨?_, ?_, ?_, ?_, rfl⟩
  · rw [hjobs]
    exact length_snapshot_jobs d loggers
  · intro lid p hmem
    rw [hjobs]
    exact snapshot_jobs_filter_mem d loggers lid p hkeys hmem
  · intro j hj
    rw [hjobs] at hj
    have : j ∈ (snapshotJobs loggers d).1 := by rw [snapshotJobs_eq]; exact hj
    exact mem_snapshot_jobs.mp this
  · intro lid hlid j hj heq
    rw [hjobs] at hj
    have hnil := snapshot_jobs_filter_not_mem d loggers lid hlid
    have : j ∈ (loggers.filterMap (entryJob d)).filter
        (fun j => j.loggerID = lid) := by
      rw [List.mem_filter]
      exact ⟨hj, by simp [heq]⟩
    rw [hnil] at this
    cases this

/-- Witness for C1: a three-entry registry with one nil entry — two jobs,
and the "A" job is exactly the expected one. -/
theorem dispatcher_fanout_exactly_once_w :
    ((regA.map Prod.fst).Nodup ∧ regA ≠ []) ∧
    (processLogData regA (some recA)).1.length = 2 ∧
    (processLogData regA (some recA)).1.filter (fun j => j.loggerID = "A")
      = [⟨"A", pubA, recA⟩] := by
  have h := dispatcher_fanout_exactly_once regA recA (by decide) (by decide)
  refine ⟨⟨by decide, by decide⟩, ?_, h.2.1 "A" pubA (by decide)⟩
  rw [h.1]
  decide

/-! ## C9 — nil publishers: stored on add, skipped at dispatch -/

/-- No entry of the registry after `AddLogger m lid none` pairs `lid`
with a non-nil publisher. -/
theorem addLogger_none_no_some (m : Registry) (lid : String) (q : Publisher) :
    (lid, some q) ∉ AddLogger m lid none := by
  intro hmem
  unfold AddLogger at hmem
  by_cases hany : m.any (fun e => e.1 = lid)
  · rw [if_pos hany] at hmem
    obtain ⟨e, hemem, hmap⟩ := List.mem_map.mp hmem
    by_cases he : e.1 = lid
    · rw [if_pos he] at hmap
      cases hmap
    · rw [if_neg he] at hmap
      exact he (by rw [hmap])
  · rw [if_neg hany] at hmem
    rcases List.mem_append.mp hmem with hin | hone
    · exact hany (List.any_eq_true.mpr ⟨(lid, some q), hin, by simp⟩)
    · simp at hone

/-- C9: `AddLogger` accepts a nil publisher — the entry is stored, not
rejected — and at dispatch time the nil entry is skipped with a
diagnostic: no delivery job is created for its id, while the
registry-snapshot loop runs to completion (the embedding of
`processLogData` is a total function: the `logger == nil` check means a
nil entry never reaches a publish call, so no nil dereference occurs). -/
theorem nil_publisher_stored_and_skipped (m : Registry) (lid : String)
    (d : LogData) :
    (lid, none) ∈ AddLogger m lid none ∧
    (∀ j ∈ (processLogData (AddLogger m lid none) (some d)).1,
      j.loggerID ≠ lid) ∧
    Diag.nilLogger lid ∈ (processLogData (AddLogger m lid none) (some d)).2 := by
  have hmem : (lid, none) ∈ AddLogger m lid none := by
    unfold AddLogger
    by_cases hany : m.any (fun e => e.1 = lid)
    · rw [if_pos hany]
      obtain ⟨e, hemem, he⟩ := List.any_eq_true.mp hany
      refine List.mem_map.mpr ⟨e, hemem, ?_⟩
      rw [if_pos (of_decide_eq_true he)]
    · rw [if_neg hany]
      exact List.mem_append.mpr (Or.inr (List.mem_singleton.mpr rfl))
  have hlen : ¬ (AddLogger m lid none).length = 0 := by
    intro h
    rw [List.length_eq_zero.mp h] at hmem
    cases hmem
  refine ⟨hmem, ?_, ?_⟩
  · intro j hj heq
    have hj' : j ∈ (snapshotJobs (AddLogger m lid none) d).1 := by
      simpa [processLogData, hlen] using hj
    have hin := (mem_snapshot_jobs.mp hj').1
    rw [heq] at hin
    exact addLogger_none_no_some m lid j.logger hin
  · have hdiags : (processLogData (AddLogger m lid none) (some d)).2
        = (AddLogger m lid none).filterMap entryDiag := by
      simp [processLogData, hlen, snapshotJobs_eq]
    rw [hdiags]
    exact List.mem_filterMap.mpr ⟨(lid, none), hmem, rfl⟩

/-! ## C3 — shutdown drains everything -/

/-- C3: `Stop()` returns only once the dispatcher has drained the intake
queue (converting every queued record to jobs) and closed the delivery
queue, and every worker has drained the delivery queue and exited.  In any
run that starts at the shutdown point (intake closed, workers in their
loops) and reaches the state `Stop()` waits for, all queues are empty and
the multiset of publish invocations is exactly the jobs queued before
shutdown plus the jobs of every record still in the intake queue — nothing
is dropped. -/
theorem Stop_drains_everything (s₀ t : MState)
    (hw : s₀.workers ≠ []) (hidle : ∀ w ∈ s₀.workers, w = WStatus.idle)
    (_hic : s₀.intakeClosed = true) (hjc : s₀.jobsClosed = false)
    (hpend : s₀.pending = []) (hpub : s₀.published = [])
    (hr : Reaches s₀ t) (hstop : StoppedState t) :
    t.intake = [] ∧ t.pending = [] ∧ t.jobs = [] ∧ AllExited t ∧
    (↑t.published : Multiset Ev) =
      ↑(s₀.jobs.map jobEvent)
        + ↑(s₀.intake.flatMap (recordEvents s₀.registry)) := by
  have hinv0 : Inv s₀ := by
    refine ⟨hw, ?_, ?_, ?_⟩
    · intro h; rw [hjc] at h; cases h
    · intro _ w hwm
      rw [hidle w hwm]
      intro hcon
      cases hcon
    · intro h; rw [hjc] at h; cases h
  obtain ⟨-, hcl, -, hjdone⟩ := inv_reaches hr hinv0
  obtain ⟨hjct, hall⟩ := hstop
  have hempty := hcl hjct
  have hjobs0 := hjdone hjct hall
  refine ⟨hempty.1, hempty.2, hjobs0, hall, ?_⟩
  have hobl := obligations_reaches hr
  have hwnilT : t.workers.flatMap workerEvents = [] :=
    List.flatMap_eq_nil_iff.mpr (fun w hwm => by rw [hall w hwm]; rfl)
  have hwnil0 : s₀.workers.flatMap workerEvents = [] :=
    List.flatMap_eq_nil_iff.mpr (fun w hwm => by rw [hidle w hwm]; rfl)
  unfold obligations at hobl
  rw [hempty.1, hempty.2, hjobs0, hwnilT, hwnil0, hpub, hpend] at hobl
  simpa using hobl

def pubW : Publisher := ⟨1, false⟩
def recPre : LogData := ⟨none, "pre", [], WarnLevel⟩
def recQ : LogData := ⟨none, "q", [], InfoLevel⟩
def jobPre : SendJob := ⟨"W", pubW, recPre⟩
def jobQ : SendJob := ⟨"W", pubW, recQ⟩

/-- The state at the moment shutdown begins in the witness run: one job
already in the delivery queue, one record still in the intake queue. -/
def stopInit : MState :=
  { registry := [("W", some pubW)]
    intake := [some recQ]
    intakeClosed := true
    pending := []
    jobs := [jobPre]
    jobsClosed := false
    workers := [WStatus.idle]
    published := []
    diags := [] }

/-- The fully stopped state the witness run reaches. -/
def stopFinal : MState :=
  { registry := [("W", some pubW)]
    intake := []
    intakeClosed := true
    pending := []
    jobs := []
    jobsClosed := true
    workers := [WStatus.exited]
    published := [("W", recPre), ("W", recQ)]
    diags := [] }

/-- Witness for C3: an explicit drain run — worker finishes the queued job,
the dispatcher drains the queued record, closes the delivery queue, the
worker finishes it and exits; both publish events survive. -/
theorem Stop_drains_everything_w :
    Reaches stopInit stopFinal ∧ StoppedState stopFinal ∧
    stopFinal.intake = [] ∧ stopFinal.jobs = [] ∧
    (↑stopFinal.published : Multiset Ev) =
      ↑(stopInit.jobs.map jobEvent)
        + ↑(stopInit.intake.flatMap (recordEvents stopInit.registry)) := by
  have hr : Reaches stopInit stopFinal :=
    Reaches.tail (Reaches.tail (Reaches.tail (Reaches.tail (Reaches.tail
      (Reaches.tail (Reaches.tail (Reaches.tail (Reaches.refl stopInit)
        (Step.take _ 0 jobPre [] rfl rfl))
        (Step.finish _ 0 jobPre rfl))
        (Step.dispatch _ (some recQ) [] rfl rfl))
        (Step.push _ jobQ [] rfl (by decide)))
        (Step.closeJobs _ rfl rfl rfl rfl))
        (Step.take _ 0 jobQ [] rfl rfl))
        (Step.finish _ 0 jobQ rfl))
        (Step.wexit _ 0 rfl rfl rfl)
  have h := Stop_drains_everything stopInit stopFinal (by decide) (by decide)
    rfl rfl rfl rfl hr ⟨rfl, by decide⟩
  exact ⟨hr, ⟨rfl, by decide⟩, h.1, h.2.2.1, h.2.2.2.2⟩

/-! ## C6 — the one-publisher, three-record scenario -/

def pubP : Publisher := ⟨1, false⟩
def recM1 : LogData := ⟨none, "m1", [], InfoLevel⟩
def recM2 : LogData := ⟨none, "m2", [], WarnLevel⟩
def recM3 : LogData := ⟨none, "m3", [], ErrorLevel⟩
def jobM1 : SendJob := ⟨"P", pubP, recM1⟩
def jobM2 : SendJob := ⟨"P", pubP, recM2⟩
def jobM3 : SendJob := ⟨"P", pubP, recM3⟩

/-- The spec's concrete scenario: one registered publisher `P`, three
records Info "m1", Warn "m2", Error "m3" enqueued in that order, the
default pool of four workers. -/
def scenarioInit : MState :=
  { registry := [("P", some pubP)]
    intake := [some recM1, some recM2, some recM3]
    intakeClosed := true
    pending := []
    jobs := []
    jobsClosed := false
    workers := [WStatus.idle, WStatus.idle, WStatus.idle, WStatus.idle]
    published := []
    diags := [] }

/-- A drained state of the scenario in which `P` received "m2" before
"m1": worker 1 completed the second record's job before worker 0 completed
the first record's. -/
def scenarioOutOfOrder : MState :=
  { registry := [("P", some pubP)]
    intake := []
    intakeClosed := true
    pending := []
    jobs := []
    jobsClosed := false
    workers := [WStatus.idle, WStatus.idle, WStatus.idle, WStatus.idle]
    published := [("P", recM2), ("P", recM1), ("P", recM3)]
    diags := [] }

/-- C6 counterexample: with the pool of four workers consuming one shared
delivery queue, there is an execution of the scenario in which `P`
receives the three publish calls out of enqueue order ("m2" before "m1"),
so in-order delivery to a publisher is not guaranteed. -/
theorem scenario_order_cex :
    Reaches scenarioInit scenarioOutOfOrder ∧ FanOutDone scenarioOutOfOrder ∧
    scenarioOutOfOrder.published =
      [("P", recM2), ("P", recM1), ("P", recM3)] ∧
    scenarioOutOfOrder.published ≠
      [("P", recM1), ("P", recM2), ("P", recM3)] := by
  have hr : Reaches scenarioInit scenarioOutOfOrder :=
    Reaches.tail (Reaches.tail (Reaches.tail (Reaches.tail (Reaches.tail
      (Reaches.tail (Reaches.tail (Reaches.tail (Reaches.tail (Reaches.tail
      (Reaches.tail (Reaches.tail (Reaches.refl scenarioInit)
        (Step.dispatch _ (some recM1) [some recM2, some recM3] rfl rfl))
        (Step.push _ jobM1 [] rfl (by decide)))
        (Step.take _ 0 jobM1 [] rfl rfl))
        (Step.dispatch _ (some recM2) [some recM3] rfl rfl))
        (Step.push _ jobM2 [] rfl (by decide)))
        (Step.take _ 1 jobM2 [] rfl rfl))
        (Step.finish _ 1 jobM2 rfl))
        (Step.finish _ 0 jobM1 rfl))
        (Step.dispatch _ (some recM3) [] rfl rfl))
        (Step.push _ jobM3 [] rfl (by decide)))
        (Step.take _ 0 jobM3 [] rfl rfl))
        (Step.finish _ 0 jobM3 rfl)
  exact ⟨hr, by decide, rfl, by decide⟩

/-- C6 amended: in every execution of the scenario that drains, `P`
receives exactly three publish calls and their level/message payloads are
exactly the three enqueued records — as a multiset; their order across the
worker pool is not guaranteed. -/
theorem scenario_exactly_three_publishes (t : MState)
    (hr : Reaches scenarioInit t) (hdone : FanOutDone t) :
    (↑t.published : Multiset Ev) = ↑[("P", recM1), ("P", recM2), ("P", recM3)] ∧
    t.published.length = 3 ∧
    (∀ e ∈ t.published, e.1 = "P") := by
  obtain ⟨hin, hpend, hjobs, hwork⟩ := hdone
  have hobl := obligations_reaches hr
  have hwnilT : t.workers.flatMap workerEvents = [] :=
    List.flatMap_eq_nil_iff.mpr (fun w hwm => by
      simp [workerEvents, hwork w hwm])
  unfold obligations at hobl
  rw [hin, hpend, hjobs, hwnilT] at hobl
  have hpubs : (↑t.published : Multiset Ev)
      = ↑[("P", recM1), ("P", recM2), ("P", recM3)] := by
    simpa using hobl
  refine ⟨hpubs, ?_, ?_⟩
  · have hcard := congrArg Multiset.card hpubs
    simpa using hcard
  · intro e he
    have hem : e ∈ (↑t.published : Multiset Ev) := he
    rw [hpubs] at hem
    have hl : e ∈ [(("P" : String), recM1), ("P", recM2), ("P", recM3)] := hem
    simp only [List.mem_cons, List.not_mem_nil, or_false] at hl
    rcases hl with rfl | rfl | rfl <;> rfl

/-- A drained state of the scenario in which a single worker handled all
three jobs in order. -/
def scenarioInOrder : MState :=
  { registry := [("P", some pubP)]
    intake := []
    intakeClosed := true
    pending := []
    jobs := []
    jobsClosed := false
    workers := [WStatus.idle, WStatus.idle, WStatus.idle, WStatus.idle]
    published := [("P", recM1), ("P", recM2), ("P", recM3)]
    diags := [] }

/-- Witness for the amended C6: an in-order execution reaching a drained
state; the amended theorem applies to it. -/
theorem scenario_exactly_three_publishes_w :
    Reaches scenarioInit scenarioInOrder ∧ FanOutDone scenarioInOrder ∧
    (↑scenarioInOrder.published : Multiset Ev)
      = ↑[("P", recM1), ("P", recM2), ("P", recM3)] ∧
    scenarioInOrder.published.length = 3 := by
  have hr : Reaches scenarioInit scenarioInOrder :=
    Reaches.tail (Reaches.tail (Reaches.tail (Reaches.tail (Reaches.tail
      (Reaches.tail (Reaches.tail (Reaches.tail (Reaches.tail (Reaches.tail
      (Reaches.tail (Reaches.tail (Reaches.refl scenarioInit)
        (Step.dispatch _ (some recM1) [some recM2, some recM3] rfl rfl))
        (Step.push _ jobM1 [] rfl (by decide)))
        (Step.take _ 0 jobM1 [] rfl rfl))
        (Step.finish _ 0 jobM1 rfl))
        (Step.dispatch _ (some recM2) [some recM3] rfl rfl))
        (Step.push _ jobM2 [] rfl (by decide)))
        (Step.take _ 0 jobM2 [] rfl rfl))
        (Step.finish _ 0 jobM2 rfl))
        (Step.dispatch _ (some recM3) [] rfl rfl))
        (Step.push _ jobM3 [] rfl (by decide)))
        (Step.take _ 0 jobM3 [] rfl rfl))
        (Step.finish _ 0 jobM3 rfl)
  have h := scenario_exactly_three_publishes scenarioInOrder hr (by decide)
  exact ⟨hr, by decide, h.1, h.2.1⟩

end Glogger
